import Mathlib

/-!
Verification of the `nafa` JTAG driver core against its specification.

The definitions below are a shallow embedding of the Rust sources:
* `src/nafa-io/src/jtag.rs` — the TAP state machine, `Path`, the BFS path
  router `get_path` and the `PATHS` table;
* `src/nafa-io/src/fake_backend.rs` — the wire-level mock backend;
* `src/nafa-io/src/controller.rs` — `detect_chain`, `Controller::new`,
  `Controller::run`, `io_bits`, `io_bytes`, `NoisyBuffer`;
* `src/nafa-io/src/ftdi.rs` — `Device::tms_internal`;
* `src/nafa-xilinx/src/_32bit/registers.rs` — `Type1::to_raw`, `type2`;
* `src/nafa-xilinx/src/_32bit/commands.rs` and `_32bit.rs` — the CFG_IN /
  CFG_OUT constants and `read_device_register`.

Machine integers (`u8`, `u16`, `u32`) are modelled as `Nat` with explicit
masking where the source can overflow.
-/

set_option maxRecDepth 10000

namespace Nafa

/-- The sixteen IEEE-1149.1 TAP states (`enum State` in `jtag.rs`). -/
inductive State where
  | TestLogicReset
  | RunTestIdle
  | SelectDR
  | CaptureDR
  | ShiftDR
  | Exit1DR
  | PauseDR
  | Exit2DR
  | UpdateDR
  | SelectIR
  | CaptureIR
  | ShiftIR
  | Exit1IR
  | PauseIR
  | Exit2IR
  | UpdateIR
deriving DecidableEq, Repr, Fintype

/-- Embeds `State::edges` from `jtag.rs`: the two successors of a state, indexed by
the TMS bit about to be clocked (`false` = element 0, `true` = element 1, as
in `impl Index<bool> for Edges`). -/
def State.edges : State → Bool → State
  | .TestLogicReset, false => .RunTestIdle
  | .TestLogicReset, true => .TestLogicReset
  | .RunTestIdle, false => .RunTestIdle
  | .RunTestIdle, true => .SelectDR
  | .SelectDR, false => .CaptureDR
  | .SelectDR, true => .SelectIR
  | .CaptureDR, false => .ShiftDR
  | .CaptureDR, true => .Exit1DR
  | .ShiftDR, false => .ShiftDR
  | .ShiftDR, true => .Exit1DR
  | .Exit1DR, false => .PauseDR
  | .Exit1DR, true => .UpdateDR
  | .PauseDR, false => .PauseDR
  | .PauseDR, true => .Exit2DR
  | .Exit2DR, false => .ShiftDR
  | .Exit2DR, true => .UpdateDR
  | .UpdateDR, false => .RunTestIdle
  | .UpdateDR, true => .SelectDR
  | .SelectIR, false => .CaptureIR
  | .SelectIR, true => .TestLogicReset
  | .CaptureIR, false => .ShiftIR
  | .CaptureIR, true => .Exit1IR
  | .ShiftIR, false => .ShiftIR
  | .ShiftIR, true => .Exit1IR
  | .Exit1IR, false => .PauseIR
  | .Exit1IR, true => .UpdateIR
  | .PauseIR, false => .PauseIR
  | .PauseIR, true => .Exit2IR
  | .Exit2IR, false => .ShiftIR
  | .Exit2IR, true => .UpdateIR
  | .UpdateIR, false => .RunTestIdle
  | .UpdateIR, true => .SelectDR

/-- Embeds `struct Path` in `jtag.rs`: a TMS bit sequence stored MSB-first in a `u8`
(`path`) together with its length (`len`). Both fields are `u8` in the
source; they are modelled as `Nat`. -/
structure Path where
  path : Nat
  len : Nat
deriving DecidableEq, Repr

/-- Embeds `Path::RESET`: transition to Test-Logic-Reset from any state. -/
def Path.RESET : Path := ⟨0xff, 5⟩

/-- Embeds `Path::IDLE`: transition to Run-Test-Idle from any state. -/
def Path.IDLE : Path := ⟨0x3e, 6⟩

/-- Embeds `u8::reverse_bits` on a byte value. -/
def reverseBits8 (n : Nat) : Nat :=
  ((n >>> 0) &&& 1) <<< 7 |||
  ((n >>> 1) &&& 1) <<< 6 |||
  ((n >>> 2) &&& 1) <<< 5 |||
  ((n >>> 3) &&& 1) <<< 4 |||
  ((n >>> 4) &&& 1) <<< 3 |||
  ((n >>> 5) &&& 1) <<< 2 |||
  ((n >>> 6) &&& 1) <<< 1 |||
  ((n >>> 7) &&& 1)

/-- Embeds `Path::as_clocked`: `self.path.reverse_bits() >> (8 - self.len)`, i.e.
the path bits in clocked (LSB-first) order. -/
def Path.asClocked (p : Path) : Nat :=
  reverseBits8 p.path >>> (8 - p.len)

/-- The bit sequence of a path in clock order, as produced by `PathIter`:
bit `idx` is `path >> (len - idx - 1) & 1`. -/
def Path.toBits (p : Path) : List Bool :=
  (List.range p.len).map fun idx => (p.path >>> (p.len - idx - 1)) &&& 1 == 1

/-- Simulate the TAP FSM along a list of TMS bits (the `follow_path` loop in
the source's tests: `cur = GRAPH[cur][dir]` for each bit). -/
def followBits (start : State) (bits : List Bool) : State :=
  bits.foldl State.edges start

/-- Simulate the TAP FSM along a `Path`. -/
def followPath (start : State) (p : Path) : State :=
  followBits start p.toBits

/-- A FIFO queue (the shallow embedding of `VecDeque`): `pop` takes from
`front`, `push` appends to `back`, and `front` is refilled from the reversed
`back` when exhausted. -/
structure Fifo (α : Type) where
  front : List α
  back : List α

def Fifo.push (q : Fifo α) (x : α) : Fifo α :=
  { q with back := x :: q.back }

def Fifo.pop (q : Fifo α) : Option (α × Fifo α) :=
  match q.front with
  | x :: rest => some (x, ⟨rest, q.back⟩)
  | [] =>
    match q.back.reverse with
    | x :: rest => some (x, ⟨rest, []⟩)
    | [] => none

/-- The loop body of `get_path` in `jtag.rs`, with explicit fuel (the Rust
loop is unbounded but terminates on this graph; `none` means the fuel ran
out or the queue emptied, neither of which happens for the TAP graph).
`path << 1` is a `u8` shift, hence the `% 256`. -/
def getPathGo (goal : State) : Nat → Fifo (Path × State) → Option Path
  | 0, _ => none
  | fuel + 1, q =>
    match q.pop with
    | none => none
    | some ((curPath, curEnd), q) =>
      if curEnd = goal then
        some curPath
      else
        let p0 : Path := ⟨(curPath.path <<< 1) % 256, curPath.len + 1⟩
        let p1 : Path := ⟨((curPath.path <<< 1) ||| 1) % 256, curPath.len + 1⟩
        getPathGo goal fuel ((q.push (p0, curEnd.edges false)).push (p1, curEnd.edges true))

/-- Embeds `get_path(start, end)` from `jtag.rs`: BFS over the TAP graph, seeded
with the two length-1 paths, TMS=0 first. -/
def getPath (start goal : State) : Option Path :=
  getPathGo goal 1024
    ⟨[(⟨0, 1⟩, start.edges false), (⟨1, 1⟩, start.edges true)], []⟩

/-- The `PATHS` table from `jtag.rs`: `PATHS[start][end] = get_path(start, end)`.
`get_path` always succeeds on the TAP graph (proved exhaustively below), so
the `Option` is discharged with a default that never occurs. -/
def PATHS (start goal : State) : Path :=
  (getPath start goal).getD ⟨0, 0⟩

example : (PATHS .RunTestIdle .ShiftIR).toBits = [true, true, false, false] := by decide
example : (PATHS .ShiftIR .RunTestIdle).toBits = [true, true, false] := by decide
example : (PATHS .TestLogicReset .RunTestIdle).toBits = [false] := by decide
example : followPath .ShiftDR Path.RESET = .TestLogicReset := by decide

/-- C1: for every ordered pair of TAP states, the BFS in `get_path` succeeds,
the resulting `PATHS[from][to]` entry is a TMS sequence of length at most 8,
and simulating it on the 16-state TAP FSM from `from` ends exactly at `to`. -/
theorem paths_table_length_and_target :
    ∀ s t : State,
      (getPath s t).isSome ∧ (PATHS s t).len ≤ 8 ∧ followPath s (PATHS s t) = t := by
  decide

/-! ## The wire-level mock backend (`fake_backend.rs`) -/

/-- One JTAG clock cycle as recorded by the mock (`struct Cycle`). -/
structure Cycle where
  tms : Bool
  tdi : Bool
  tdo : Bool
deriving DecidableEq, Repr

/-- Embeds `enum Data` from `backend.rs`: the payload of a `bytes` shift. Byte
slices are lists of byte values. -/
inductive Data where
  | Tx (tdi : List Nat)
  | Rx (len : Nat)
  | TxRx (tdi : List Nat)
  | ConstantTx (tdi : Bool) (len : Nat)

/-- Embeds `struct FakeBackend`: the recorded cycle trace, the IDCODE the mock
reports, and the pending read length. -/
structure FakeBackend where
  cycles : List Cycle
  idcode : Nat
  read_len : Nat

/-- Cycles emitted by `FakeBackend::tms`: each path bit with TDI held high
and TDO low. -/
def tmsCycles (p : Path) : List Cycle :=
  p.toBits.map fun tms => ⟨tms, true, false⟩

def tmsTraceOpt : Option Path → List Cycle
  | some p => tmsCycles p
  | none => []

/-- Embeds `FakeBackend::tms`. -/
def FakeBackend.tms (fb : FakeBackend) (p : Path) : FakeBackend :=
  { fb with cycles := fb.cycles ++ tmsCycles p }

/-- The first seven bits of a transmitted byte (`add_bit` calls for bits 0–6
of the `Tx`/`TxRx` loop in `FakeBackend::bytes`). -/
def byteLow7 (tdo : Bool) (b : Nat) : List Cycle :=
  [⟨false, b &&& 1 == 1, tdo⟩,
   ⟨false, (b >>> 1) &&& 1 == 1, tdo⟩,
   ⟨false, (b >>> 2) &&& 1 == 1, tdo⟩,
   ⟨false, (b >>> 3) &&& 1 == 1, tdo⟩,
   ⟨false, (b >>> 4) &&& 1 == 1, tdo⟩,
   ⟨false, (b >>> 5) &&& 1 == 1, tdo⟩,
   ⟨false, (b >>> 6) &&& 1 == 1, tdo⟩]

/-- All eight bits of a transmitted byte. -/
def fullByte (tdo : Bool) (b : Nat) : List Cycle :=
  byteLow7 tdo b ++ [⟨false, (b >>> 7) &&& 1 == 1, tdo⟩]

/-- The data cycles of `FakeBackend::bytes` together with the
`(last_tdi, last_tdo)` pair left for the `after` path. When an `after` path
is present, the final bit of the payload is withheld (it rides on the first
TMS edge); `last_tdi` starts `true` and is only updated in the `Tx`/`TxRx`
arm, exactly as in the source. -/
def dataCycles (data : Data) (hasAfter : Bool) : List Cycle × Bool × Bool :=
  match data with
  | .Tx tdi | .TxRx tdi =>
    let tdo := match data with | .TxRx _ => true | _ => false
    match hasAfter, tdi.getLast? with
    | true, some lastByte =>
      (tdi.dropLast.flatMap (fullByte tdo) ++ byteLow7 tdo lastByte,
        (lastByte >>> 7) &&& 1 == 1, tdo)
    | _, _ => (tdi.flatMap (fullByte tdo), true, false)
  | .Rx len | .ConstantTx _ len =>
    let tdi := match data with | .ConstantTx b _ => b | _ => true
    let tdo := match data with | .Rx _ => true | _ => false
    match hasAfter, len with
    | true, n + 1 => (List.replicate (8 * n + 7) ⟨false, tdi, tdo⟩, true, tdo)
    | _, _ => (List.replicate (8 * len) ⟨false, tdi, tdo⟩, true, false)

/-- The read-length increment of a `bytes` call (`read_len += …`). -/
def dataRx : Data → Nat
  | .Tx _ => 0
  | .TxRx tdi => tdi.length
  | .Rx len => len
  | .ConstantTx _ _ => 0

/-- Cycles emitted for an `after` path: the first TMS bit carries the held
back `(last_tdi, last_tdo)`, the rest clock TDI high. -/
def afterCycles (p : Path) (lastTdi lastTdo : Bool) : List Cycle :=
  match p.toBits with
  | [] => []
  | t :: rest => ⟨t, lastTdi, lastTdo⟩ :: rest.map fun tms => ⟨tms, true, false⟩

/-- The full cycle trace of one `FakeBackend::bytes` call. -/
def bytesTrace (before : Option Path) (data : Data) (after : Option Path) : List Cycle :=
  let (cs, lastTdi, lastTdo) := dataCycles data after.isSome
  tmsTraceOpt before ++ cs ++
    match after with
    | some p => afterCycles p lastTdi lastTdo
    | none => []

/-- Embeds `FakeBackend::bytes`. -/
def FakeBackend.bytes (fb : FakeBackend) (before : Option Path) (data : Data)
    (after : Option Path) : FakeBackend :=
  { fb with
    cycles := fb.cycles ++ bytesTrace before data after
    read_len := fb.read_len + dataRx data }

/-- The shift loop of `FakeBackend::bits`: `len` cycles of `data & 1` with
TMS low, shifting `data` right once per cycle. -/
def bitsLoop : Nat → Nat → List Cycle
  | _, 0 => []
  | data, n + 1 => ⟨false, data &&& 1 == 1, false⟩ :: bitsLoop (data >>> 1) n

/-- The full cycle trace of one `FakeBackend::bits` call. With an `after`
path only `len - 1` bits are shifted and the final bit rides on the first
TMS edge. -/
def bitsTrace (before : Option Path) (data len : Nat) (after : Option Path) : List Cycle :=
  let len' := if after.isSome then len - 1 else len
  tmsTraceOpt before ++ bitsLoop data len' ++
    match after with
    | some p => afterCycles p ((data >>> len') &&& 1 == 1) false
    | none => []

/-- Embeds `FakeBackend::bits`. -/
def FakeBackend.bits (fb : FakeBackend) (before : Option Path) (data len : Nat)
    (after : Option Path) : FakeBackend :=
  { fb with cycles := fb.cycles ++ bitsTrace before data len after }

/-- The little-endian bytes of a 32-bit value (`u32::to_le_bytes`). -/
def leBytes4 (n : Nat) : List Nat :=
  [n % 256, n / 2 ^ 8 % 256, n / 2 ^ 16 % 256, n / 2 ^ 24 % 256]

/-- The bytes `FakeBackend::flush` materializes: `read_len` bytes of `0xff`,
with the first four overwritten by the little-endian IDCODE when at least
four bytes were requested. -/
def flushBytes (idcode read_len : Nat) : List Nat :=
  if 4 ≤ read_len then leBytes4 idcode ++ List.replicate (read_len - 4) 0xff
  else List.replicate read_len 0xff

/-- Embeds `FakeBackend::flush`: reset `read_len` and return the bytes appended to
the caller's buffer. -/
def FakeBackend.flush (fb : FakeBackend) : FakeBackend × List Nat :=
  ({ fb with read_len := 0 }, flushBytes fb.idcode fb.read_len)

/-! ## The Controller (`controller.rs`) -/

/-- Embeds `struct DeviceInfo` from `devices.rs` (the `specific` payload is not
needed by any claim and is omitted). `irlen` is a `Bits<u8>` count. -/
structure DeviceInfo where
  irlen : Nat
  name : String
deriving DecidableEq, Repr

/-- Embeds `enum CommandInner` from `controller.rs`. -/
inductive CommandInner where
  | IrTxBits (tdi : Nat)
  | DrTx (tdi : List Nat)
  | DrRx (len : Nat)
  | DrTxRx (tdi : List Nat)
  | Idle (len : Nat)

/-- Embeds `struct Command`: a command plus its `notify` flag. -/
structure Command where
  notify : Bool
  inner : CommandInner

def Command.ir (tdi : Nat) : Command := ⟨false, .IrTxBits tdi⟩
def Command.dr_tx (tdi : List Nat) : Command := ⟨false, .DrTx tdi⟩
def Command.dr_tx_with_notification (tdi : List Nat) : Command := ⟨true, .DrTx tdi⟩
def Command.dr_rx (len : Nat) : Command := ⟨false, .DrRx len⟩
def Command.dr_rx_with_notification (len : Nat) : Command := ⟨true, .DrRx len⟩
def Command.dr_txrx (tdi : List Nat) : Command := ⟨false, .DrTxRx tdi⟩
def Command.dr_txrx_with_notification (tdi : List Nat) : Command := ⟨true, .DrTxRx tdi⟩
def Command.idle (len : Nat) : Command := ⟨false, .Idle len⟩

/-- Embeds `io_bits` from `controller.rs`, run against the mock backend: IR shift
with `irlen_before` / `irlen_after` ones of padding around the target's
instruction, split so the exit path rides on the final shifted bit. -/
def ioBits (fb : FakeBackend) (irlen irlenBefore irlenAfter tdi : Nat) : FakeBackend :=
  let ir0 := some (PATHS .RunTestIdle .ShiftIR)
  let ir1 := some (PATHS .ShiftIR .RunTestIdle)
  match irlenBefore, irlenAfter with
  | 0, 0 => fb.bits ir0 tdi irlen ir1
  | pre + 1, 0 =>
    ((fb.bits ir0 0xffffffff (pre + 1) none).bits none tdi irlen ir1)
  | 0, post + 1 =>
    ((fb.bits ir0 tdi irlen none).bits none 0xffffffff (post + 1) ir1)
  | pre + 1, post + 1 =>
    (((fb.bits ir0 0xffffffff (pre + 1) none).bits none tdi irlen none).bits
      none 0xffffffff (post + 1) ir1)

/-- Embeds `io_bytes` from `controller.rs`: DR shift with one BYPASS bit of padding
per device before/after the target. -/
def ioBytes (fb : FakeBackend) (devicesBefore devicesAfter : Nat) (data : Data) : FakeBackend :=
  let dr0 := some (PATHS .RunTestIdle .ShiftDR)
  let dr1 := some (PATHS .ShiftDR .RunTestIdle)
  match devicesBefore, devicesAfter with
  | 0, 0 => fb.bytes dr0 data dr1
  | pre + 1, 0 =>
    ((fb.bits dr0 0xffffffff (pre + 1) none).bytes none data dr1)
  | 0, post + 1 =>
    ((fb.bytes dr0 data none).bits none 0xffffffff (post + 1) dr1)
  | pre + 1, post + 1 =>
    (((fb.bits dr0 0xffffffff (pre + 1) none).bytes none data none).bits
      none 0xffffffff (post + 1) dr1)

/-- The chain layout a `Controller` holds: devices before the target, the
target's descriptor, devices after. -/
structure ChainConfig where
  before : List DeviceInfo
  info : DeviceInfo
  after : List DeviceInfo

/-- Embeds `irlen_before` in `Controller::run`: the `u8` sum of the IR lengths of
the devices before the target (`u8` addition wraps, hence `% 256`). -/
def ChainConfig.irlenBefore (cfg : ChainConfig) : Nat :=
  ((cfg.before.map DeviceInfo.irlen).sum) % 256

/-- Embeds `irlen_after` in `Controller::run`. -/
def ChainConfig.irlenAfter (cfg : ChainConfig) : Nat :=
  ((cfg.after.map DeviceInfo.irlen).sum) % 256

/-- One iteration of the command loop in `Controller::run`. -/
def execCmd (cfg : ChainConfig) (fb : FakeBackend) (c : Command) : FakeBackend :=
  match c.inner with
  | .IrTxBits tdi => ioBits fb cfg.info.irlen cfg.irlenBefore cfg.irlenAfter tdi
  | .DrTx tdi => ioBytes fb cfg.before.length cfg.after.length (.Tx tdi)
  | .DrRx len => ioBytes fb cfg.before.length cfg.after.length (.Rx len)
  | .DrTxRx tdi => ioBytes fb cfg.before.length cfg.after.length (.TxRx tdi)
  | .Idle len => fb.bytes none (.ConstantTx true len) none

/-- The observable state `Controller::run` threads: the mock backend, the
controller's output buffer, and the external progress counter. -/
structure RunState where
  fb : FakeBackend
  buf : List Nat
  counter : Nat

/-- Embeds `Controller::run` against the mock backend. `notifyInstalled` models a
non-null `notify` pointer (a counter installed via `with_notifications`).
The buffer is cleared first; each command is issued in order (the command's
buffer shim never fires mid-batch because the mock touches the buffer only
in `flush`); afterwards a `Path::IDLE` TMS path and a flush are issued, the
flush going through the noisy shim exactly when the last command's `notify`
flag was set. -/
def Controller.run (cfg : ChainConfig) (notifyInstalled : Bool) (st : RunState)
    (cmds : List Command) : RunState :=
  let (fb, lastNoisy) :=
    cmds.foldl (fun (p : FakeBackend × Bool) c => (execCmd cfg p.1 c, c.notify))
      (st.fb, false)
  let fb := fb.tms Path.IDLE
  let extLen := fb.read_len
  let (fb, ext) := fb.flush
  { fb := fb
    buf := [] ++ ext
    counter :=
      if notifyInstalled && lastNoisy then st.counter + extLen else st.counter }

/-- Embeds `Controller::new` against the mock backend: one `Path::RESET` pulse, the
Test-Logic-Reset → Run-Test-Idle path, then a flush (whose output is
discarded by `buf.clear()`). Returns the backend state. -/
def Controller.new (fb : FakeBackend) : FakeBackend :=
  let fb := fb.tms Path.RESET
  let fb := fb.tms (PATHS .TestLogicReset .RunTestIdle)
  (fb.flush).1

/-- The `n` low bits of `v`, LSB-first (the spec's description of the
shifted instruction bits). -/
def lsbBits (v n : Nat) : List Bool :=
  (List.range n).map fun i => (v >>> i) &&& 1 == 1

/-- A chain with one device of IR length 6 before the target, a target of IR
length 6, and one device of IR length 12 after it. -/
def cfg_6_6_12 : ChainConfig :=
  ⟨[⟨6, "before"⟩], ⟨6, "target"⟩, [⟨12, "after"⟩]⟩

/-- C2: the Controller's translation of an IR-shift command on a chain with
6 IR bits before the target (irlen 6) and 12 after. The mock-wire trace is:
4 entry-path cycles (TDI high), then the 24 shifted TDI bits — 6 ones, the
6 low bits of `V` LSB-first, 12 ones — then the 2 remaining exit-path
cycles; TMS is low on the first 23 shifted bits and rises on bit 23 (the
last shifted bit, cycle 27, first bit of the Shift-IR → Run-Test-Idle
path). -/
theorem ir_padding_6_6_12 (V : Nat) (_hV : V < 2 ^ 32) :
    ((execCmd cfg_6_6_12 ⟨[], 0, 0⟩ (Command.ir V)).cycles.map Cycle.tdi
        = List.replicate 10 true ++ lsbBits V 6 ++ List.replicate 14 true)
    ∧ ((execCmd cfg_6_6_12 ⟨[], 0, 0⟩ (Command.ir V)).cycles.map Cycle.tms
        = [true, true, false, false] ++ List.replicate 23 false ++ [true, true, false]) :=
  ⟨rfl, rfl⟩

/-- Witness for C2 at the concrete instruction value 37. -/
theorem ir_padding_6_6_12_witness :
    ((execCmd cfg_6_6_12 ⟨[], 0, 0⟩ (Command.ir 37)).cycles.map Cycle.tdi
        = List.replicate 10 true ++ lsbBits 37 6 ++ List.replicate 14 true)
    ∧ ((execCmd cfg_6_6_12 ⟨[], 0, 0⟩ (Command.ir 37)).cycles.map Cycle.tms
        = [true, true, false, false] ++ List.replicate 23 false ++ [true, true, false]) :=
  ir_padding_6_6_12 37 (by norm_num)

/-! ## Per-command accounting for `Controller::run` -/

/-- The Rx contribution of one command (the bytes its `Data` requests). -/
def cmdRx (c : Command) : Nat :=
  match c.inner with
  | .DrRx len => len
  | .DrTxRx tdi => tdi.length
  | _ => 0

/-- Total Rx bytes requested by a command batch. -/
def totalRx (cmds : List Command) : Nat :=
  (cmds.map cmdRx).sum

/-- The cycle trace of one `io_bits` call: the concatenation of its
`FakeBackend::bits` traces. -/
def ioBitsTrace (irlen irlenBefore irlenAfter tdi : Nat) : List Cycle :=
  let ir0 := some (PATHS .RunTestIdle .ShiftIR)
  let ir1 := some (PATHS .ShiftIR .RunTestIdle)
  match irlenBefore, irlenAfter with
  | 0, 0 => bitsTrace ir0 tdi irlen ir1
  | pre + 1, 0 =>
    bitsTrace ir0 0xffffffff (pre + 1) none ++ bitsTrace none tdi irlen ir1
  | 0, post + 1 =>
    bitsTrace ir0 tdi irlen none ++ bitsTrace none 0xffffffff (post + 1) ir1
  | pre + 1, post + 1 =>
    bitsTrace ir0 0xffffffff (pre + 1) none ++ bitsTrace none tdi irlen none
      ++ bitsTrace none 0xffffffff (post + 1) ir1

/-- The cycle trace of one `io_bytes` call. -/
def ioBytesTrace (devicesBefore devicesAfter : Nat) (data : Data) : List Cycle :=
  let dr0 := some (PATHS .RunTestIdle .ShiftDR)
  let dr1 := some (PATHS .ShiftDR .RunTestIdle)
  match devicesBefore, devicesAfter with
  | 0, 0 => bytesTrace dr0 data dr1
  | pre + 1, 0 =>
    bitsTrace dr0 0xffffffff (pre + 1) none ++ bytesTrace none data dr1
  | 0, post + 1 =>
    bytesTrace dr0 data none ++ bitsTrace none 0xffffffff (post + 1) dr1
  | pre + 1, post + 1 =>
    bitsTrace dr0 0xffffffff (pre + 1) none ++ bytesTrace none data none
      ++ bitsTrace none 0xffffffff (post + 1) dr1

/-- The wire cycles one command contributes, independent of prior state. -/
def cmdTrace (cfg : ChainConfig) (c : Command) : List Cycle :=
  match c.inner with
  | .IrTxBits tdi => ioBitsTrace cfg.info.irlen cfg.irlenBefore cfg.irlenAfter tdi
  | .DrTx tdi => ioBytesTrace cfg.before.length cfg.after.length (.Tx tdi)
  | .DrRx len => ioBytesTrace cfg.before.length cfg.after.length (.Rx len)
  | .DrTxRx tdi => ioBytesTrace cfg.before.length cfg.after.length (.TxRx tdi)
  | .Idle len => bytesTrace none (.ConstantTx true len) none

/-- Embeds `last_noisy` in `Controller::run`: the `notify` flag of the last command
(`b` when the batch is empty). -/
def lastNoisy (b : Bool) : List Command → Bool
  | [] => b
  | c :: rest => lastNoisy c.notify rest

lemma ioBits_cycles (fb : FakeBackend) (irlen pre post tdi : Nat) :
    (ioBits fb irlen pre post tdi).cycles
      = fb.cycles ++ ioBitsTrace irlen pre post tdi := by
  cases pre <;> cases post <;>
    simp [ioBits, ioBitsTrace, FakeBackend.bits, List.append_assoc]

lemma ioBits_read_len (fb : FakeBackend) (irlen pre post tdi : Nat) :
    (ioBits fb irlen pre post tdi).read_len = fb.read_len := by
  cases pre <;> cases post <;> rfl

lemma ioBits_idcode (fb : FakeBackend) (irlen pre post tdi : Nat) :
    (ioBits fb irlen pre post tdi).idcode = fb.idcode := by
  cases pre <;> cases post <;> rfl

lemma ioBytes_cycles (fb : FakeBackend) (pre post : Nat) (data : Data) :
    (ioBytes fb pre post data).cycles
      = fb.cycles ++ ioBytesTrace pre post data := by
  cases pre <;> cases post <;>
    simp [ioBytes, ioBytesTrace, FakeBackend.bits, FakeBackend.bytes, List.append_assoc]

lemma ioBytes_read_len (fb : FakeBackend) (pre post : Nat) (data : Data) :
    (ioBytes fb pre post data).read_len = fb.read_len + dataRx data := by
  cases pre <;> cases post <;> rfl

lemma ioBytes_idcode (fb : FakeBackend) (pre post : Nat) (data : Data) :
    (ioBytes fb pre post data).idcode = fb.idcode := by
  cases pre <;> cases post <;> rfl

lemma execCmd_cycles (cfg : ChainConfig) (fb : FakeBackend) (c : Command) :
    (execCmd cfg fb c).cycles = fb.cycles ++ cmdTrace cfg c := by
  cases c with
  | mk notify inner =>
    cases inner <;>
      simp [execCmd, cmdTrace, ioBits_cycles, ioBytes_cycles, FakeBackend.bytes]

lemma execCmd_read_len (cfg : ChainConfig) (fb : FakeBackend) (c : Command) :
    (execCmd cfg fb c).read_len = fb.read_len + cmdRx c := by
  cases c with
  | mk notify inner =>
    cases inner <;>
      simp [execCmd, cmdRx, ioBits_read_len, ioBytes_read_len, FakeBackend.bytes, dataRx]

lemma execCmd_idcode (cfg : ChainConfig) (fb : FakeBackend) (c : Command) :
    (execCmd cfg fb c).idcode = fb.idcode := by
  cases c with
  | mk notify inner =>
    cases inner <;>
      simp [execCmd, ioBits_idcode, ioBytes_idcode, FakeBackend.bytes]

/-- The state threaded through the command loop of `Controller::run`. -/
lemma run_foldl (cfg : ChainConfig) (cmds : List Command) (fb : FakeBackend) (b : Bool) :
    (cmds.foldl (fun (p : FakeBackend × Bool) c => (execCmd cfg p.1 c, c.notify)) (fb, b))
      = (⟨fb.cycles ++ (cmds.map (cmdTrace cfg)).flatten, fb.idcode,
          fb.read_len + totalRx cmds⟩, lastNoisy b cmds) := by
  induction cmds generalizing fb b with
  | nil => simp [totalRx, lastNoisy]
  | cons c rest ih =>
    rw [List.foldl_cons, ih]
    have h1 := execCmd_cycles cfg fb c
    have h2 := execCmd_read_len cfg fb c
    have h3 := execCmd_idcode cfg fb c
    cases hfb : execCmd cfg fb c with
    | mk cy idc rl =>
      rw [hfb] at h1 h2 h3
      simp only at h1 h2 h3
      subst h1 h2 h3
      simp [totalRx, lastNoisy, List.append_assoc, Nat.add_assoc]

lemma flushBytes_length (idcode n : Nat) : (flushBytes idcode n).length = n := by
  unfold flushBytes
  split <;> simp [leBytes4] <;> omega

lemma tms_read_len (fb : FakeBackend) (p : Path) : (fb.tms p).read_len = fb.read_len := rfl

lemma tms_idcode (fb : FakeBackend) (p : Path) : (fb.tms p).idcode = fb.idcode := rfl

/-- C3: for every command batch whose commands request `totalRx cmds` bytes
of Rx data, `Controller::run` returns a buffer of exactly that length; the
buffer is the single flush's materialization of those bytes, and the wire
trace is the per-command traces concatenated in submission order followed by
the closing `Path::IDLE` transition (no interleaving). -/
theorem run_output_length_and_order (cfg : ChainConfig) (ni : Bool) (st : RunState)
    (cmds : List Command) (h0 : st.fb.read_len = 0)
    (_hb : cfg.before.length ≤ 32) (_ha : cfg.after.length ≤ 32) :
    (Controller.run cfg ni st cmds).buf.length = totalRx cmds
    ∧ (Controller.run cfg ni st cmds).buf = flushBytes st.fb.idcode (totalRx cmds)
    ∧ (Controller.run cfg ni st cmds).fb.cycles
        = st.fb.cycles ++ (cmds.map (cmdTrace cfg)).flatten ++ tmsCycles Path.IDLE := by
  unfold Controller.run
  rw [run_foldl]
  simp [FakeBackend.flush, FakeBackend.tms, flushBytes_length, h0, List.append_assoc]

/-- Witness for C3: a two-command batch (a 4-byte DR read and a 3-byte DR
transmit+receive) on a single-device chain returns exactly 7 bytes. -/
theorem run_output_length_and_order_witness :
    (Controller.run ⟨[], ⟨6, "XC7A35T"⟩, []⟩ false ⟨⟨[], 0x0362d093, 0⟩, [], 0⟩
        [Command.dr_rx 4, Command.dr_txrx [1, 2, 3]]).buf.length
      = totalRx [Command.dr_rx 4, Command.dr_txrx [1, 2, 3]] :=
  (run_output_length_and_order ⟨[], ⟨6, "XC7A35T"⟩, []⟩ false ⟨⟨[], 0x0362d093, 0⟩, [], 0⟩
    [Command.dr_rx 4, Command.dr_txrx [1, 2, 3]] rfl (by decide) (by decide)).1

/-- C10: with a counter installed (`ni = true`), the counter grows by
exactly the bytes materialized through the noisy buffer shim. The mock
backend extends the output buffer only at the final flush, which runs under
the shim exactly when the last command's `notify` flag is set, so the
counter grows by the whole batch's Rx size then and is untouched otherwise;
with no counter installed, or when every command's `notify` flag is unset,
the counter never changes. -/
theorem run_counter_tracks_noisy_extends (cfg : ChainConfig) (ni : Bool) (st : RunState)
    (cmds : List Command) (h0 : st.fb.read_len = 0)
    (_hb : cfg.before.length ≤ 32) (_ha : cfg.after.length ≤ 32) :
    (Controller.run cfg ni st cmds).counter
      = st.counter + (if ni && lastNoisy false cmds then totalRx cmds else 0) := by
  unfold Controller.run
  rw [run_foldl]
  simp only [tms_read_len, FakeBackend.flush, h0, Nat.zero_add]
  split <;> simp

/-- Witness for C10: a notify-flagged final command adds the batch's Rx
size (5 bytes) to the counter. -/
theorem run_counter_tracks_noisy_extends_witness :
    (Controller.run ⟨[], ⟨6, "XC7A35T"⟩, []⟩ true ⟨⟨[], 0x0362d093, 0⟩, [], 11⟩
        [Command.ir 9, Command.dr_rx_with_notification 5]).counter
      = 11 + (if true && lastNoisy false [Command.ir 9, Command.dr_rx_with_notification 5]
          then totalRx [Command.ir 9, Command.dr_rx_with_notification 5] else 0) :=
  run_counter_tracks_noisy_extends ⟨[], ⟨6, "XC7A35T"⟩, []⟩ true ⟨⟨[], 0x0362d093, 0⟩, [], 11⟩
    [Command.ir 9, Command.dr_rx_with_notification 5] rfl (by decide) (by decide)

/-- C6 counterexample: `Controller::new` does NOT issue two `Path::RESET`
pulses before the Test-Logic-Reset → Run-Test-Idle path — its TMS trace is
one RESET pulse (5 ones) followed by the single-bit idle path (the
two-pulse sequence lives in `detect_chain`, not `Controller::new`). -/
theorem controller_new_not_two_resets :
    (Controller.new ⟨[], 0, 0⟩).cycles.map Cycle.tms
      ≠ Path.RESET.toBits ++ Path.RESET.toBits ++ (PATHS .TestLogicReset .RunTestIdle).toBits := by
  decide

/-- C6 amended: at construction the Controller issues one `Path::RESET`
pulse, then the Test-Logic-Reset → Run-Test-Idle path, then a flush; the
resulting TMS sequence drives the TAP to Run-Test-Idle from every prior
state. -/
theorem controller_new_resets_to_idle :
    (Controller.new ⟨[], 0, 0⟩).cycles.map Cycle.tms
        = Path.RESET.toBits ++ (PATHS .TestLogicReset .RunTestIdle).toBits
    ∧ ∀ s : State,
        followBits s ((Controller.new ⟨[], 0, 0⟩).cycles.map Cycle.tms) = .RunTestIdle := by
  decide

/-! ## Chain detection (`detect_chain` in `controller.rs`)

The backend is abstracted to the stream of 32-bit words the DR yields: the
loop iteration with `ret.len() = n` reads `(n+1)*4` bytes and examines word
`n`, so iteration `n` sees `words[n]`. The Zynq US+ wake-up routine's own DR
read is the separate parameter `zynqWord`. Error values carry the data that
the source interpolates into its `eyre!` message. -/

inductive DetectError where
  /-- Embeds the idcode-not-found error; the source formats the offending
  IDCODE into the message. -/
  | idcodeNotFound (idcode : Nat)
  /-- the `assert!(info.irlen <= Bits(32))` in `get_info` -/
  | irlenAssert (idcode : Nat)
  /-- Embeds the device-in-BYPASS error; the source formats the offending
  IDCODE into the message. -/
  | bypass (idcode : Nat)
  /-- Embeds `"end of chain after zynq us special case ???"` -/
  | zynqEndOfChain
  /-- Embeds `"still in bypass after zynq us special case"` -/
  | zynqBypass
  /-- model-only: the abstract word stream ran dry -/
  | outOfWords
deriving DecidableEq, Repr

/-- The `get_info` closure in `detect_chain`. -/
def getInfo (devices : Nat → Option DeviceInfo) (idcode : Nat) :
    Except DetectError DeviceInfo :=
  match devices idcode with
  | none => .error (.idcodeNotFound idcode)
  | some info => if info.irlen ≤ 32 then .ok info else .error (.irlenAssert idcode)

/-- Embeds `zynq_us_init_arm_dap`, abstracted to the word its final 4-byte DR read
returns: end-of-chain and BYPASS words are rejected, anything else is the
real IDCODE. -/
def zynqUsInitArmDap (zynqWord : Nat) : Except DetectError Nat :=
  if zynqWord = 0xffffffff then .error .zynqEndOfChain
  else if zynqWord &&& 1 ≠ 1 then .error .zynqBypass
  else .ok zynqWord

/-- The loop of `detect_chain`: each iteration examines the next word;
`0xFFFFFFFF` ends the chain, a first word with low 12 bits `0x126` routes
through the Zynq US+ wake-up, an even word is a BYPASS error, anything else
is looked up and enrolled. -/
def detectChainGo (devices : Nat → Option DeviceInfo) (zynqWord : Nat) :
    List Nat → List (Nat × DeviceInfo) → Except DetectError (List (Nat × DeviceInfo))
  | [], _ => .error .outOfWords
  | w :: rest, ret =>
    if w = 0xffffffff then .ok ret
    else if ret = [] ∧ w &&& 0xfff = 0x126 then
      match zynqUsInitArmDap zynqWord with
      | .error e => .error e
      | .ok idcode =>
        match getInfo devices idcode with
        | .error e => .error e
        | .ok info => detectChainGo devices zynqWord rest (ret ++ [(idcode, info)])
    else if w &&& 1 ≠ 1 then .error (.bypass w)
    else
      match getInfo devices w with
      | .error e => .error e
      | .ok info => detectChainGo devices zynqWord rest (ret ++ [(w, info)])

/-- Embeds `detect_chain`, starting from an empty chain. -/
def detectChain (devices : Nat → Option DeviceInfo) (zynqWord : Nat)
    (words : List Nat) : Except DetectError (List (Nat × DeviceInfo)) :=
  detectChainGo devices zynqWord words []

/-- A word the detection loop enrolls without error: not the end-of-chain
marker, LSB set (so also not the Zynq fingerprint, which is even), and a
known device with a legal IR length. -/
def acceptedB (devices : Nat → Option DeviceInfo) (w : Nat) : Bool :=
  w != 0xffffffff && (w &&& 1 == 1) &&
    (match devices w with
     | some info => info.irlen ≤ 32
     | none => false)

lemma acceptedB_iff (devices : Nat → Option DeviceInfo) (w : Nat) :
    acceptedB devices w = true
      ↔ w ≠ 0xffffffff ∧ w &&& 1 = 1
          ∧ ∃ info, devices w = some info ∧ info.irlen ≤ 32 := by
  unfold acceptedB
  cases hd : devices w <;> simp [hd, and_assoc]

lemma odd_not_zynq_fingerprint (w : Nat) (h1 : w &&& 1 = 1) : w &&& 0xfff ≠ 0x126 := by
  intro heq
  have hassoc : w &&& 0xfff &&& 1 = w &&& 1 := by
    rw [Nat.and_assoc]
    norm_num
  rw [heq, h1] at hassoc
  exact absurd hassoc (by decide)

lemma detectChainGo_scan (devices : Nat → Option DeviceInfo) (zynqWord : Nat) :
    ∀ (k : Nat) (words : List Nat) (ret : List (Nat × DeviceInfo)),
      k < words.length →
      (∀ j, j < k → acceptedB devices (words.getD j 0) = true) →
      (words.getD k 0 = 0xffffffff →
        ∃ l, detectChainGo devices zynqWord words ret = .ok l ∧ l.length = ret.length + k)
      ∧ ((words.getD k 0) &&& 1 ≠ 1 →
          ¬(ret = [] ∧ k = 0 ∧ (words.getD k 0) &&& 0xfff = 0x126) →
          detectChainGo devices zynqWord words ret = .error (.bypass (words.getD k 0))) := by
  intro k
  induction k with
  | zero =>
    intro words ret hk _
    cases words with
    | nil => simp at hk
    | cons w rest =>
      simp only [List.getD_cons_zero]
      constructor
      · intro hw
        refine ⟨ret, ?_, by omega⟩
        unfold detectChainGo
        rw [if_pos hw]
      · intro h1 hnz
        have hne : w ≠ 0xffffffff := fun he => h1 (by rw [he]; decide)
        have hz : ¬(ret = [] ∧ w &&& 0xfff = 0x126) :=
          fun ⟨hr, hzz⟩ => hnz ⟨hr, by trivial, hzz⟩
        unfold detectChainGo
        rw [if_neg hne, if_neg hz, if_pos h1]
  | succ k ih =>
    intro words ret hk hprev
    cases words with
    | nil => simp at hk
    | cons w rest =>
      have hw0 := (acceptedB_iff devices w).mp (by simpa using hprev 0 (Nat.succ_pos k))
      obtain ⟨hne, h1, info, hinfo, hirlen⟩ := hw0
      have hz : ¬(ret = [] ∧ w &&& 0xfff = 0x126) :=
        fun ⟨_, hzz⟩ => odd_not_zynq_fingerprint w h1 hzz
      have hb1 : ¬(w &&& 1 ≠ 1) := by simp [h1]
      have hstep : detectChainGo devices zynqWord (w :: rest) ret
          = detectChainGo devices zynqWord rest (ret ++ [(w, info)]) := by
        conv_lhs => unfold detectChainGo
        rw [if_neg hne, if_neg hz, if_neg hb1]
        simp only [getInfo, hinfo]
        rw [if_pos hirlen]
      have hk' : k < rest.length := by simpa using Nat.lt_of_succ_lt_succ hk
      have hprev' : ∀ j, j < k → acceptedB devices (rest.getD j 0) = true := by
        intro j hj
        simpa using hprev (j + 1) (Nat.succ_lt_succ hj)
      obtain ⟨ha, hb⟩ := ih rest (ret ++ [(w, info)]) hk' hprev'
      constructor
      · intro hwk
        obtain ⟨l, hl, hlen⟩ := ha (by simpa using hwk)
        refine ⟨l, by rw [hstep]; exact hl, ?_⟩
        simp at hlen
        omega
      · intro h1k hnz
        have := hb (by simpa using h1k) (by simp)
        rw [hstep]
        simpa using this

/-- C7 counterexample: the claim fails as universally stated — when an
earlier word is an odd IDCODE unknown to the device map, `detect_chain`
errors with that lookup failure, not with the BYPASS error naming the later
even word. Words `[3, 2, 0xFFFFFFFF]` with an empty device map: word 1 has
LSB 0, yet the error reports IDCODE 3. -/
theorem detect_chain_bypass_counterexample :
    detectChain (fun _ => none) 0 [3, 2, 0xffffffff] = .error (.idcodeNotFound 3)
    ∧ detectChain (fun _ => none) 0 [3, 2, 0xffffffff] ≠ .error (.bypass 2) := by
  constructor
  · rfl
  · intro h
    rw [show detectChain (fun _ => none) 0 [3, 2, 0xffffffff]
        = .error (.idcodeNotFound 3) from rfl] at h
    simp at h

/-- C7 amended: provided every word before position `k` is enrolled without
error (odd LSB, known device, legal IR length), the scan (a) terminates
successfully at a word equal to `0xFFFFFFFF` with one chain entry per
earlier word, (b) fails with a BYPASS error carrying the offending word
when word `k` has LSB 0 — unless it is the first word and its low 12 bits
are `0x126`, (c) in which case the scan instead routes through the Zynq US+
wake-up routine. -/
theorem detect_chain_scan (devices : Nat → Option DeviceInfo) (zynqWord : Nat)
    (words : List Nat) (k : Nat) (hk : k < words.length)
    (hprev : ∀ j, j < k → acceptedB devices (words.getD j 0) = true) :
    (words.getD k 0 = 0xffffffff →
      ∃ l, detectChain devices zynqWord words = .ok l ∧ l.length = k)
    ∧ ((words.getD k 0) &&& 1 ≠ 1 →
        ¬(k = 0 ∧ (words.getD k 0) &&& 0xfff = 0x126) →
        detectChain devices zynqWord words = .error (.bypass (words.getD k 0)))
    ∧ (k = 0 → (words.getD 0 0) &&& 0xfff = 0x126 → words.getD 0 0 ≠ 0xffffffff →
        detectChain devices zynqWord words =
          match zynqUsInitArmDap zynqWord with
          | .error e => .error e
          | .ok idcode =>
            match getInfo devices idcode with
            | .error e => .error e
            | .ok info => detectChainGo devices zynqWord words.tail [(idcode, info)]) := by
  obtain ⟨ha, hb⟩ := detectChainGo_scan devices zynqWord k words [] hk hprev
  refine ⟨fun hw => by simpa [detectChain] using ha hw,
    fun h1 hnz => hb h1 (fun ⟨_, hk0, hx⟩ => hnz ⟨hk0, hx⟩), ?_⟩
  intro hk0 hz hne
  subst hk0
  cases words with
  | nil => simp at hk
  | cons w rest =>
    simp only [List.getD_cons_zero] at hz hne
    unfold detectChain
    conv_lhs => unfold detectChainGo
    rw [if_neg hne, if_pos ⟨rfl, hz⟩]
    simp only [List.tail_cons]
    cases zynqUsInitArmDap zynqWord with
    | error e => rfl
    | ok idcode =>
      cases getInfo devices idcode with
      | error e => rfl
      | ok info => rfl

/-- Witness for C7: a single XC7A35T followed by the end-of-chain marker is
detected as a one-device chain. -/
theorem detect_chain_scan_witness :
    ∃ l, detectChain
        (fun w => if w = 0x0362d093 then some ⟨6, "XC7A35T"⟩ else none) 0
        [0x0362d093, 0xffffffff] = .ok l ∧ l.length = 1 :=
  (detect_chain_scan (fun w => if w = 0x0362d093 then some ⟨6, "XC7A35T"⟩ else none) 0
    [0x0362d093, 0xffffffff] 1 (by decide)
    (by intro j hj; interval_cases j <;> decide)).1 rfl

/-! ## The FTDI MPSSE backend (`ftdi.rs`)

Only the command-byte emission of `Device::tms_internal` is modelled; the
`maybe_flush` that follows only transmits the accumulated buffer once 65 536
bytes pile up and never changes the bytes pushed here. -/

/-- The MPSSE command flags from `mod flags` in `ftdi.rs`. -/
def WRITE_NEG : Nat := 0x01
def BITMODE : Nat := 0x02
def READ_NEG : Nat := 0x04
def LSB : Nat := 0x08
def DO_WRITE : Nat := 0x10
def DO_READ : Nat := 0x20
def WRITE_TMS : Nat := 0x40

/-- The MPSSE command state of `ftdi::Device`: the queued command bytes and
the pending read length. -/
structure FtdiDevice where
  cmd_buf : List Nat
  cmd_read_len : Nat

/-- Embeds `Device::tms_internal`: push one WRITE_TMS command — the flags byte, a
length byte `path.len - 1`, and a data byte holding the constant TDI level
in bit 7 OR-ed with the clocked path bits. -/
def Device.tms_internal (dev : FtdiDevice) (p : Path) (tdi : Bool) : FtdiDevice :=
  let tdiByte := if tdi then 0x80 else 0x00
  let flags := WRITE_TMS ||| LSB ||| BITMODE ||| WRITE_NEG
  { dev with cmd_buf := dev.cmd_buf ++ [flags, p.len - 1, tdiByte ||| p.asClocked] }

/-- C9 counterexample: length-8 paths are NOT split across two WRITE_TMS
commands. `PATHS[Shift-DR][Exit2-IR]` has length 8, and `tms_internal`
emits it as a single 3-byte command `[0x4B, 7, 0xAF]` whose length byte
announces 8 TMS bits and whose data-byte bit 7 — the TDI position — holds
the 8th TMS bit (1) even though TDI is low. -/
theorem tms_internal_len8_single_command :
    (PATHS .ShiftDR .Exit2IR).len = 8
    ∧ (Device.tms_internal ⟨[], 0⟩ (PATHS .ShiftDR .Exit2IR) false).cmd_buf
        = [0x4b, 7, 0xaf]
    ∧ (0xaf : Nat) >>> 7 ≠ 0 := by
  decide

lemma reverseBits8_lt (n : Nat) (h : n < 256) : reverseBits8 n < 256 := by
  have hall : ∀ b : Fin 256, reverseBits8 (b : Nat) < 256 := by decide
  exact hall ⟨n, h⟩

lemma asClocked_lt (p : Path) (hp : p.path < 256) (h7 : p.len ≤ 7) :
    p.asClocked < 128 := by
  unfold Path.asClocked
  rw [Nat.shiftRight_eq_div_pow]
  have h256 := reverseBits8_lt p.path hp
  have h2 : 2 ≤ 2 ^ (8 - p.len) := by
    have : 1 ≤ 8 - p.len := by omega
    calc 2 = 2 ^ 1 := rfl
    _ ≤ 2 ^ (8 - p.len) := Nat.pow_le_pow_right (by omega) this
  calc reverseBits8 p.path / 2 ^ (8 - p.len)
      ≤ reverseBits8 p.path / 2 := Nat.div_le_div_left h2 (by omega)
    _ < 128 := by omega

lemma or_high_bit (a : Nat) (ha : a < 128) (tdi : Bool) :
    ((if tdi then 0x80 else 0x00) ||| a) = (if tdi then 128 else 0) + a
    ∧ (((if tdi then 128 else 0) + a) &&& 0x7f) = a
    ∧ (((if tdi then 128 else 0) + a) &&& 0x80) = (if tdi then 128 else 0) := by
  have hall : ∀ b : Fin 128,
      ((0x80 ||| (b : Nat)) = 128 + (b : Nat))
      ∧ ((0x00 ||| (b : Nat)) = 0 + (b : Nat))
      ∧ (((128 + (b : Nat)) &&& 0x7f) = (b : Nat))
      ∧ (((0 + (b : Nat)) &&& 0x7f) = (b : Nat))
      ∧ (((128 + (b : Nat)) &&& 0x80) = 128)
      ∧ (((0 + (b : Nat)) &&& 0x80) = 0) := by decide
  have h := hall ⟨a, ha⟩
  cases tdi
  · simp only [Bool.false_eq_true, if_false]
    exact ⟨by simpa using h.2.1, by simpa using h.2.2.2.1, by simpa using h.2.2.2.2.2⟩
  · simp only [if_true]
    exact ⟨h.1, h.2.2.1, h.2.2.2.2.1⟩

/-- C9 amended: `tms_internal` always emits exactly one WRITE_TMS command of
three bytes; for every path of length 1–7 the data byte is the constant TDI
level in bit 7 plus the clocked TMS pattern in the low 7 bits (the pattern
fits below 128, the low 7 bits recover it, and bit 7 recovers the TDI
level). Length-8 paths are not split (see the counterexample); no emitted
command ever carries more than 7 TMS bits only because every path the
driver passes here has length ≤ 7. -/
theorem tms_internal_low7_pattern (dev : FtdiDevice) (p : Path) (tdi : Bool)
    (hp : p.path < 256) (_h1 : 1 ≤ p.len) (h7 : p.len ≤ 7) :
    (Device.tms_internal dev p tdi).cmd_buf
      = dev.cmd_buf ++ [0x4b, p.len - 1, (if tdi then 128 else 0) + p.asClocked]
    ∧ p.asClocked < 128
    ∧ (((if tdi then 128 else 0) + p.asClocked) &&& 0x7f) = p.asClocked
    ∧ (((if tdi then 128 else 0) + p.asClocked) &&& 0x80) = (if tdi then 128 else 0) := by
  have ha := asClocked_lt p hp h7
  obtain ⟨h2, h3, h4⟩ := or_high_bit p.asClocked ha tdi
  refine ⟨?_, ha, h3, h4⟩
  simp only [Device.tms_internal, WRITE_TMS, LSB, BITMODE, WRITE_NEG]
  rw [h2]
  congr 1

/-- Witness for C9 at `Path::RESET` (five TMS ones) with TDI high. -/
theorem tms_internal_low7_pattern_witness :
    (Device.tms_internal ⟨[], 0⟩ Path.RESET true).cmd_buf
      = [] ++ [0x4b, Path.RESET.len - 1, (if true then 128 else 0) + Path.RESET.asClocked] :=
  (tms_internal_low7_pattern ⟨[], 0⟩ Path.RESET true (by decide) (by decide) (by decide)).1

/-! ## Xilinx configuration packets (`_32bit/registers.rs`, `_32bit/commands.rs`,
`_32bit.rs`) -/

/-- Embeds `enum OpCode`: `Noop = 0`, `Read = 1`, `Write = 2`; `Unknown` takes the
next discriminant, 3. -/
inductive OpCode where
  | Noop
  | Read
  | Write
  | Unknown
deriving DecidableEq, Repr

/-- The `repr(u8)` discriminant (`op as u8`). -/
def OpCode.toNat : OpCode → Nat
  | .Noop => 0
  | .Read => 1
  | .Write => 2
  | .Unknown => 3

/-- Embeds `enum Addr` with its explicit `repr(u16)` discriminants. -/
inductive Addr where
  | Crc
  | Far
  | Fdri
  | Fdro
  | Cmd
  | Ctl0
  | Mask
  | Stat
  | Lout
  | Cor0
  | Mfwr
  | Cbc
  | Idcode
  | Axss
  | Cor1
  | Wbstar
  | Timer
  | RbcrcSw
  | Bootsts
  | Ctl1
  | Rdri
  | Ssit
  | Bspi
deriving DecidableEq, Repr, Fintype

/-- The `repr(u16)` discriminant (`addr as u16`). -/
def Addr.toNat : Addr → Nat
  | .Crc => 0
  | .Far => 1
  | .Fdri => 2
  | .Fdro => 3
  | .Cmd => 4
  | .Ctl0 => 5
  | .Mask => 6
  | .Stat => 7
  | .Lout => 8
  | .Cor0 => 9
  | .Mfwr => 10
  | .Cbc => 11
  | .Idcode => 12
  | .Axss => 13
  | .Cor1 => 14
  | .Wbstar => 16
  | .Timer => 17
  | .RbcrcSw => 19
  | .Bootsts => 22
  | .Ctl1 => 24
  | .Rdri => 26
  | .Ssit => 30
  | .Bspi => 31

/-- Embeds `struct Type1` (`word_count` is a `u16` in the source). -/
structure Type1 where
  op : OpCode
  addr : Addr
  word_count : Nat
deriving DecidableEq, Repr

/-- Embeds `Type1::to_raw` exactly as written: note the word-count mask is `0x3ff`
(10 bits) although the doc comment above it says bits `[10:0]`. -/
def Type1.to_raw (t : Type1) : Nat :=
  let header := 1 <<< 29
  let opcode := (t.op.toNat &&& 0x3) <<< 27
  let address := (t.addr.toNat &&& 0x3fff) <<< 13
  let word_count := t.word_count &&& 0x3ff
  header ||| opcode ||| address ||| word_count

def Type1.DUMMY : Nat := 0xffffffff
def Type1.SYNC : Nat := 0xaa995566
def Type1.NOOP : Nat := 0x20000000

/-- Embeds `type2` exactly as written: note the word-count mask is `0x03ff_ffff`
(26 bits) although the doc comment above it says bits `[26:0]`. -/
def type2 (op : OpCode) (word_count : Nat) : Nat :=
  let header := 2 <<< 29
  let opcode := (op.toNat &&& 0x3) <<< 27
  let word_count := word_count &&& 0x03ffffff
  header ||| opcode ||| word_count

/-- Field extraction: header bits 31:29. -/
def rawHeader (raw : Nat) : Nat := raw >>> 29

/-- Field extraction: opcode bits 28:27. -/
def rawOpcode (raw : Nat) : Nat := (raw >>> 27) &&& 0x3

/-- Field extraction: Type-1 address bits 26:13. -/
def rawAddr (raw : Nat) : Nat := (raw >>> 13) &&& 0x3fff

/-- Field extraction: Type-1 word-count bits 10:0. -/
def rawType1WordCount (raw : Nat) : Nat := raw &&& 0x7ff

/-- Field extraction: Type-2 word-count bits 26:0. -/
def rawType2WordCount (raw : Nat) : Nat := raw &&& 0x7ffffff

example : Type1.to_raw ⟨.Read, .Stat, 1⟩ = 0x2800e001 := by decide

/-- C4: `Type1::to_raw` masks the word count with `0x3ff` (10 bits), so the
documented 11-bit field does not round-trip: `word_count = 1024` (legal per
the doc comment's bits `[10:0]` and the spec's range `0..2048`) encodes as
a raw word whose word-count field is 0, not 1024. Header, opcode and
address fields still encode correctly. -/
theorem type1_to_raw_drops_word_count_bit10 :
    Type1.to_raw ⟨.Noop, .Crc, 1024⟩ = 0x20000000
    ∧ rawType1WordCount (Type1.to_raw ⟨.Noop, .Crc, 1024⟩) = 0
    ∧ rawType1WordCount (Type1.to_raw ⟨.Noop, .Crc, 1024⟩) ≠ 1024
    ∧ rawHeader (Type1.to_raw ⟨.Noop, .Crc, 1024⟩) = 1
    ∧ rawOpcode (Type1.to_raw ⟨.Noop, .Crc, 1024⟩) = OpCode.Noop.toNat
    ∧ rawAddr (Type1.to_raw ⟨.Noop, .Crc, 1024⟩) = Addr.Crc.toNat := by
  decide

/-- C8: `type2` masks the word count with `0x03ff_ffff` (26 bits), so the
documented 27-bit field loses bit 26: `word_count = 2^26` (below the
claim's `2^27` bound) encodes as a raw word whose bits 26:0 are 0, not
`2^26`. Header and opcode fields still encode correctly. -/
theorem type2_drops_word_count_bit26 :
    type2 .Read (2 ^ 26) = 0x48000000
    ∧ rawType2WordCount (type2 .Read (2 ^ 26)) = 0
    ∧ rawType2WordCount (type2 .Read (2 ^ 26)) ≠ 2 ^ 26
    ∧ rawHeader (type2 .Read (2 ^ 26)) = 2
    ∧ rawOpcode (type2 .Read (2 ^ 26)) = OpCode.Read.toNat := by
  decide

/-- Embeds `CFG_OUT` from `commands.rs` (from XC7VX690T.bsdl). -/
def CFG_OUT : Nat := 0b000100

/-- Embeds `CFG_IN` from `commands.rs` (from XC7VX690T.bsdl). -/
def CFG_IN : Nat := 0b000101

/-- Embeds `shift_for_slr` from `_32bit.rs`: place a 6-bit instruction in the
active SLR's slot and NOOP (`0b100100`) in the others (`!x` on `u32` is
modelled as `XOR 0xffffffff`). -/
def shift_for_slr (active_slr inst : Nat) : Nat :=
  let NOOPS := 0b100100100100100100100100100100
  let inst := inst &&& 0b111111
  NOOPS &&& (0xffffffff ^^^ (0b111111 <<< (active_slr * 6))) ||| inst <<< (active_slr * 6)

/-- Embeds `u32::to_be_bytes`. -/
def beBytes4 (n : Nat) : List Nat :=
  [n / 2 ^ 24 % 256, n / 2 ^ 16 % 256, n / 2 ^ 8 % 256, n % 256]

/-- Embeds `bitstream_to_wire_order` from `_32bit.rs`: big-endian bytes, each
bit-reflected, flattened. -/
def bitstream_to_wire_order (x : List Nat) : List Nat :=
  x.flatMap fun w => (beBytes4 w).map reverseBits8

/-- The command sequence `read_device_register` submits: IR ← CFG_IN, DR ←
the wire-ordered tiny bitstream, IR ← CFG_OUT, DR read of
`word_count × 4` bytes. -/
def read_device_register (active_slr : Nat) (reg : Type1) : List Command :=
  let tiny_bitstream := bitstream_to_wire_order
    [Type1.SYNC, Type1.NOOP, reg.to_raw, Type1.NOOP, Type1.NOOP]
  [Command.ir (shift_for_slr active_slr CFG_IN),
   Command.dr_tx tiny_bitstream,
   Command.ir (shift_for_slr active_slr CFG_OUT),
   Command.dr_rx (reg.word_count * 4)]

/-- C5 counterexample: the `CFG_IN` instruction constant is not `0x04`. -/
theorem cfg_in_not_0x04 : CFG_IN ≠ 0x04 := by decide

/-- C5 amended: the spec swaps the two opcodes. `CFG_IN` — the instruction
the configuration-register read issues first — is `0x05`, and `CFG_OUT`,
the distinct named constant it switches to afterwards, is `0x04`. -/
theorem cfg_in_cfg_out_opcodes (active_slr : Nat) (reg : Type1)
    (_h : active_slr ≤ 4) :
    CFG_IN = 0x05 ∧ CFG_OUT = 0x04 ∧ CFG_IN ≠ CFG_OUT
    ∧ (read_device_register active_slr reg).head?
        = some (Command.ir (shift_for_slr active_slr CFG_IN))
    ∧ (read_device_register active_slr reg)[2]?
        = some (Command.ir (shift_for_slr active_slr CFG_OUT)) :=
  ⟨rfl, rfl, by decide, rfl, rfl⟩

/-- Witness for C5 on SLR 0 and a STAT-register read. -/
theorem cfg_in_cfg_out_opcodes_witness :
    CFG_IN = 0x05 ∧ CFG_OUT = 0x04 ∧ CFG_IN ≠ CFG_OUT
    ∧ (read_device_register 0 ⟨.Read, .Stat, 1⟩).head?
        = some (Command.ir (shift_for_slr 0 CFG_IN))
    ∧ (read_device_register 0 ⟨.Read, .Stat, 1⟩)[2]?
        = some (Command.ir (shift_for_slr 0 CFG_OUT)) :=
  cfg_in_cfg_out_opcodes 0 ⟨.Read, .Stat, 1⟩ (by decide)

end Nafa
